import Mathlib

/-!
Verification of the CatLink CLI core (catlink_cli/api.py, catlink_cli/const.py)
against its natural-language specification.

The Python source is shallowly embedded: dictionaries become association
lists or explicit functions, Python truthiness is made explicit, the system
keyring becomes a `String to Option String` store passed around explicitly,
and HTTP requests become response oracles supplied as arguments.
-/

namespace Catlink

/-! ### JSON-ish values and Python truthiness (for device dictionaries) -/

/-- A JSON-ish scalar value as it appears in device dictionaries. -/
inductive JVal where
  | vnull : JVal
  | vint : Int → JVal
  | vstr : String → JVal
deriving DecidableEq

/-- Python truthiness of a value: None, 0 and the empty string are falsy. -/
def truthy : JVal → Bool
  | JVal.vnull => false
  | JVal.vint n => n != 0
  | JVal.vstr s => s != ""

/-- Python `str()` conversion of a value. -/
def pyStr : JVal → String
  | JVal.vnull => "None"
  | JVal.vint n => toString n
  | JVal.vstr s => s

/-- Python `a or b`: the first operand when truthy, otherwise the second. -/
def pyOr (a b : JVal) : JVal := if truthy a then a else b

/-- A device dictionary: an association list (first binding wins). -/
abbrev Device := List (String × JVal)

/-- Python `dev.get(k)`: the first binding for `k`, or None when absent. -/
def dget (d : Device) (k : String) : JVal :=
  match d.find? (fun p => p.1 == k) with
  | some p => p.2
  | none => JVal.vnull

/-! ### Device-list merge (`_merge_devices` in api.py) -/

/-- The identity expression of `_merge_devices`:
`dev.get("id") or dev.get("deviceId") or dev.get("mac")`. -/
def rawIdent (d : Device) : JVal :=
  pyOr (dget d "id") (pyOr (dget d "deviceId") (dget d "mac"))

/-- The identity key of a device: `str` of the raw identity when truthy,
otherwise no identity (the `if dev_id:` guard in `_merge_devices`). -/
def keyOf (d : Device) : Option String :=
  let v := rawIdent d
  if truthy v then some (pyStr v) else none

/-- The loop of `_merge_devices`: walk the combined list carrying the set of
already-seen identity keys. -/
def mergeGo : List Device → List String → List Device
  | [], _ => []
  | d :: rest, seen =>
    match keyOf d with
    | none => d :: mergeGo rest seen
    | some k =>
      if seen.contains k then mergeGo rest seen
      else d :: mergeGo rest (k :: seen)

/-- Embeds `_merge_devices(primary, extra)`: iterate `[*primary, *extra]`, dropping an
item whose identity key was already seen. -/
def mergeDevices (primary extra : List Device) : List Device :=
  mergeGo (primary ++ extra) []

/-- Spec-side predicate: the item `d` is a duplicate of some item in `ctx`
(it has an identity key equal to the identity key of an item of `ctx`). -/
def droppedAt (ctx : List Device) (d : Device) : Bool :=
  match keyOf d with
  | none => false
  | some k => ctx.any (fun d2 => keyOf d2 == some k)

/-- Spec-side merge: an item of the concatenation is dropped exactly when its
identity key equals the identity key of an earlier item; items without an
identity key are always kept; order of kept items is preserved. -/
def mergeSpecGo : List Device → List Device → List Device
  | _, [] => []
  | pre, d :: rest =>
    if droppedAt pre d then mergeSpecGo (pre ++ [d]) rest
    else d :: mergeSpecGo (pre ++ [d]) rest

/-- Spec-side merge of a combined device list. -/
def mergeSpec (l : List Device) : List Device := mergeSpecGo [] l

/-! ### Static constants (const.py) -/

/-- DEFAULT_API_BASE from const.py. -/
def DEFAULT_API_BASE : String := "https://app.catlinks.cn/api/"

/-- API_SERVERS from const.py, in insertion order. -/
def API_SERVERS : List (String × String) :=
  [("global", "https://app.catlinks.cn/api/"),
   ("china", "https://app-sh.catlinks.cn/api/"),
   ("usa", "https://app-usa.catlinks.cn/api/"),
   ("singapore", "https://app-sgp.catlinks.cn/api/")]

/-- SIGN_KEY from const.py (the shared signing secret). -/
def SIGN_KEY : String :=
  "00109190907746a7ad0e2139b6d09ce47551770157fe4ac5922f3a5454c82712"

/-- KEYRING_TOKEN_KEY from const.py. -/
def KEYRING_TOKEN_KEY : String := "token"

/-- KEYRING_PHONE_KEY from const.py. -/
def KEYRING_PHONE_KEY : String := "phone"

/-- KEYRING_IAC_KEY from const.py. -/
def KEYRING_IAC_KEY : String := "phone_iac"

/-- KEYRING_API_BASE_KEY from const.py. -/
def KEYRING_API_BASE_KEY : String := "api_base"

/-- Modelled from the spec: api.py imports `KEYRING_VERIFY_KEY` from const.py,
but the const.py source does not contain its definition; the spec fixes the
stored key set as token, phone, phone_iac, api_base, verify. -/
def KEYRING_VERIFY_KEY : String := "verify"

/-! ### Region helpers (`_region_key`, `_region_from_api_base`) -/

/-- Embeds `_region_key(key, region)`: the region-scoped keyring key name. -/
def regionKey (key region : String) : String := key ++ ":" ++ region

/-- Python `api_base.rstrip("/")`: drop all trailing slashes. -/
def rstripSlash (s : String) : String :=
  String.mk ((s.data.reverse.dropWhile (fun c => c == '/')).reverse)

/-- Embeds `_region_from_api_base`: normalize the base URL and reverse-look it up in
the region table, returning the first matching region name. -/
def regionFromApiBase (apiBase : String) : Option String :=
  let normalized := rstripSlash apiBase ++ "/"
  (API_SERVERS.find? (fun p => p.2 == normalized)).map Prod.fst

/-! ### The keyring store model -/

/-- The OS keyring under the fixed service name, as a partial map. -/
abbrev Store := String → Option String

/-- Models `keyring.set_password` for one key. -/
def setKey (s : Store) (k v : String) : Store :=
  fun k2 => if k2 = k then some v else s k2

/-- Models `keyring.delete_password` for one key (deleting an absent key is a no-op,
mirroring the swallowed PasswordDeleteError). -/
def delKey (s : Store) (k : String) : Store :=
  fun k2 => if k2 = k then none else s k2

/-- Python `str()` of a bool. -/
def pyStrBool (b : Bool) : String := if b then "True" else "False"

/-- Embeds `save_credentials`: write the five unscoped legacy keys, then additionally
the five region-scoped keys when the api_base reverse-looks-up to a region. -/
def saveCredentials (token phone phoneIac apiBase : String) (verify : Bool)
    (store : Store) : Store :=
  let s1 := setKey store KEYRING_TOKEN_KEY token
  let s2 := setKey s1 KEYRING_PHONE_KEY phone
  let s3 := setKey s2 KEYRING_IAC_KEY phoneIac
  let s4 := setKey s3 KEYRING_API_BASE_KEY apiBase
  let s5 := setKey s4 KEYRING_VERIFY_KEY (pyStrBool verify)
  match regionFromApiBase apiBase with
  | none => s5
  | some region =>
    let t1 := setKey s5 (regionKey KEYRING_TOKEN_KEY region) token
    let t2 := setKey t1 (regionKey KEYRING_PHONE_KEY region) phone
    let t3 := setKey t2 (regionKey KEYRING_IAC_KEY region) phoneIac
    let t4 := setKey t3 (regionKey KEYRING_API_BASE_KEY region) apiBase
    setKey t4 (regionKey KEYRING_VERIFY_KEY region) (pyStrBool verify)

/-! ### Credential loading (`_load_credentials*` in api.py) -/

/-- Python truthiness of an optional string: None and the empty string are
falsy; a truthy optional string is returned as-is. -/
def truthyStr : Option String → Option String
  | none => none
  | some s => if s = "" then none else some s

/-- Python `a or dflt` for an optional string `a` and a final default. -/
def orDefault (a : Option String) (dflt : String) : String :=
  match truthyStr a with
  | some s => s
  | none => dflt

/-- Python `API_SERVERS.get(region, DEFAULT_API_BASE)`. -/
def lookupServer (region : String) : String :=
  match API_SERVERS.find? (fun p => p.1 == region) with
  | some p => p.2
  | none => DEFAULT_API_BASE

/-- A stored credential record. -/
structure Creds where
  token : String
  phone : String
  phoneIac : String
  apiBase : String
  verify : Bool
deriving DecidableEq

/-- The `verify_str != "False" if verify_str is not None else True` expression. -/
def verifyOfStr (verifyStr : Option String) : Bool :=
  match verifyStr with
  | none => true
  | some v => v != "False"

/-- Embeds `_load_credentials_for_region`: None when the region-scoped token is falsy;
otherwise each field with its individual fallback (region-scoped value, else
legacy value, else field default; api_base falls back to the region table). -/
def loadCredentialsForRegion (store : Store) (region : String) : Option Creds :=
  match truthyStr (store (regionKey KEYRING_TOKEN_KEY region)) with
  | none => none
  | some token =>
    let verifyStr :=
      match store (regionKey KEYRING_VERIFY_KEY region) with
      | none => store KEYRING_VERIFY_KEY
      | some v => some v
    some (Creds.mk token
      (orDefault (store (regionKey KEYRING_PHONE_KEY region))
        (orDefault (store KEYRING_PHONE_KEY) ""))
      (orDefault (store (regionKey KEYRING_IAC_KEY region))
        (orDefault (store KEYRING_IAC_KEY) "86"))
      (orDefault (store (regionKey KEYRING_API_BASE_KEY region))
        (lookupServer region))
      (verifyOfStr verifyStr))

/-- Embeds `_load_legacy_credentials`: the unscoped record, None when the unscoped
token is falsy. -/
def loadLegacyCredentials (store : Store) : Option Creds :=
  match truthyStr (store KEYRING_TOKEN_KEY) with
  | none => none
  | some token =>
    some (Creds.mk token
      (orDefault (store KEYRING_PHONE_KEY) "")
      (orDefault (store KEYRING_IAC_KEY) "86")
      (orDefault (store KEYRING_API_BASE_KEY) DEFAULT_API_BASE)
      (verifyOfStr (store KEYRING_VERIFY_KEY)))

/-- Embeds `_load_credentials(region=...)`: a truthy region selects that region's
record only; otherwise resolve a region from the stored unscoped api_base and
use its record when present, falling back to the legacy record. -/
def loadCredentials (store : Store) (region : Option String) : Option Creds :=
  match truthyStr region with
  | some r => loadCredentialsForRegion store r
  | none =>
    match truthyStr (store KEYRING_API_BASE_KEY) with
    | some apiBase =>
      (match truthyStr (regionFromApiBase apiBase) with
       | some regionName =>
         (match loadCredentialsForRegion store regionName with
          | some creds => some creds
          | none => loadLegacyCredentials store)
       | none => loadLegacyCredentials store)
    | none => loadLegacyCredentials store

/-! ### Credential clearing -/

/-- The five per-record key names in the order save/clear use them. -/
def recordKeyNames : List String :=
  [KEYRING_TOKEN_KEY, KEYRING_PHONE_KEY, KEYRING_IAC_KEY,
   KEYRING_API_BASE_KEY, KEYRING_VERIFY_KEY]

/-- The key list built by `clear_credentials`: the five legacy keys, then for
each region of the table its five region-scoped keys. -/
def clearKeys : List String :=
  API_SERVERS.foldl
    (fun acc p => acc ++ recordKeyNames.map (fun k => regionKey k p.1))
    recordKeyNames

/-- Embeds `clear_credentials()`: delete every key of `clearKeys`. -/
def clearCredentials (store : Store) : Store :=
  clearKeys.foldl delKey store

/-- Modelled from the spec: `clear_credentials_for_region` is imported by the
CLI and patched by its tests but its definition is not among the sources; per
the spec, clearing with a region deletes only that region's keys. -/
def clearCredentialsForRegion (store : Store) (region : String) : Store :=
  (recordKeyNames.map (fun k => regionKey k region)).foldl delKey store

/-! ### Response envelopes and checking (`_check_response`, `login`) -/

/-- An API response envelope: the status sentinel, the two message fields and
the token field of the data payload (the parts the embedded operations read).
`none` stands for an absent field. -/
structure Resp where
  returnCode : Option Int
  msg : Option String
  message : Option String
  dataToken : Option String
deriving DecidableEq

/-- Python `rsp.get("msg") or rsp.get("message") or dflt`. -/
def errMsg (m1 m2 : Option String) (dflt : String) : String :=
  orDefault m1 (orDefault m2 dflt)

/-- Embeds `_check_response`: sentinel 1002 raises token-expired; any other truthy
non-zero sentinel raises an API error with the selected message and the code;
otherwise the response passes through. Errors are (message, code) pairs. -/
def checkResponse (rsp : Resp) : Except (String × Int) Resp :=
  let code := rsp.returnCode.getD 0
  if code = 1002 then Except.error ("Token expired", 1002)
  else if code ≠ 0 then
    Except.error (errMsg rsp.msg rsp.message ("Error code " ++ toString code), code)
  else Except.ok rsp

/-- The mutable client session state (api_base, token, language, verify). -/
structure CState where
  apiBase : String
  token : String
  language : String
  verify : Bool

/-- Replace the session token. -/
def withToken (st : CState) (t : String) : CState :=
  CState.mk st.apiBase t st.language st.verify

/-- Embeds `login`: clear the token, dispatch the login request (the server oracle
receives the token the request carries), then either fail with the selected
message (token left empty) or store and return the response token. -/
def login (st : CState) (server : String → Resp) :
    CState × Except (String × Int) String :=
  let st1 := withToken st ""
  let rsp := server st1.token
  match truthyStr rsp.dataToken with
  | none =>
    (st1, Except.error ("Login failed: " ++ errMsg rsp.msg rsp.message "Login failed", 0))
  | some tok => (withToken st1 tok, Except.ok tok)

/-- Embeds `_request_with_reauth`: perform the request (`oracle 0`); on sentinel 1002
load cached credentials for the region resolved from the current api_base;
when they exist, re-login (dispatching `oracle 1`) and retry the original
request exactly once (`oracle 2`); otherwise return the first response. -/
def requestWithReauth (st : CState) (store : Store) (oracle : Nat → Resp) :
    CState × Except (String × Int) Resp :=
  let rsp := oracle 0
  if rsp.returnCode.getD 0 = 1002 then
    match loadCredentials store (regionFromApiBase st.apiBase) with
    | none => (st, Except.ok rsp)
    | some _ =>
      match login st (fun _ => oracle 1) with
      | (st1, Except.error e) => (st1, Except.error e)
      | (st1, Except.ok _) => (st1, Except.ok (oracle 2))
  else (st, Except.ok rsp)

/-- The caller pattern of every typed operation: `_request_with_reauth`
followed by `_check_response` on its successful result. -/
def requestWithReauthChecked (st : CState) (store : Store) (oracle : Nat → Resp) :
    CState × Except (String × Int) Resp :=
  match requestWithReauth st store oracle with
  | (st1, Except.ok rsp) => (st1, checkResponse rsp)
  | r => r

/-! ### UTF-8 encoding and MD5 (RFC 1321), over lists of byte values -/

/-- UTF-8 encoding of one character, as byte values. -/
def utf8Char (c : Char) : List Nat :=
  let n := c.toNat
  if n < 128 then [n]
  else if n < 2048 then
    [192 ||| (n >>> 6), 128 ||| (n &&& 63)]
  else if n < 65536 then
    [224 ||| (n >>> 12), 128 ||| ((n >>> 6) &&& 63), 128 ||| (n &&& 63)]
  else
    [240 ||| (n >>> 18), 128 ||| ((n >>> 12) &&& 63),
     128 ||| ((n >>> 6) &&& 63), 128 ||| (n &&& 63)]

/-- UTF-8 encoding of a string (Python `.encode()`). -/
def utf8Bytes (s : String) : List Nat :=
  s.data.foldr (fun c acc => utf8Char c ++ acc) []

/-- Two to the 32nd, the word modulus of MD5. -/
def M32 : Nat := 4294967296

/-- Rotate a 32-bit word left by s bits. -/
def rotl32 (x s : Nat) : Nat :=
  ((x <<< s) ||| (x >>> (32 - s))) % M32

/-- The 64 MD5 sine constants. -/
def md5K : List Nat :=
  [0xd76aa478, 0xe8c7b756, 0x242070db, 0xc1bdceee,
   0xf57c0faf, 0x4787c62a, 0xa8304613, 0xfd469501,
   0x698098d8, 0x8b44f7af, 0xffff5bb1, 0x895cd7be,
   0x6b901122, 0xfd987193, 0xa679438e, 0x49b40821,
   0xf61e2562, 0xc040b340, 0x265e5a51, 0xe9b6c7aa,
   0xd62f105d, 0x02441453, 0xd8a1e681, 0xe7d3fbc8,
   0x21e1cde6, 0xc33707d6, 0xf4d50d87, 0x455a14ed,
   0xa9e3e905, 0xfcefa3f8, 0x676f02d9, 0x8d2a4c8a,
   0xfffa3942, 0x8771f681, 0x6d9d6122, 0xfde5380c,
   0xa4beea44, 0x4bdecfa9, 0xf6bb4b60, 0xbebfbc70,
   0x289b7ec6, 0xeaa127fa, 0xd4ef3085, 0x04881d05,
   0xd9d4d039, 0xe6db99e5, 0x1fa27cf8, 0xc4ac5665,
   0xf4292244, 0x432aff97, 0xab9423a7, 0xfc93a039,
   0x655b59c3, 0x8f0ccc92, 0xffeff47d, 0x85845dd1,
   0x6fa87e4f, 0xfe2ce6e0, 0xa3014314, 0x4e0811a1,
   0xf7537e82, 0xbd3af235, 0x2ad7d2bb, 0xeb86d391]

/-- The 64 MD5 per-round left-rotation amounts. -/
def md5S : List Nat :=
  [7, 12, 17, 22, 7, 12, 17, 22, 7, 12, 17, 22, 7, 12, 17, 22,
   5, 9, 14, 20, 5, 9, 14, 20, 5, 9, 14, 20, 5, 9, 14, 20,
   4, 11, 16, 23, 4, 11, 16, 23, 4, 11, 16, 23, 4, 11, 16, 23,
   6, 10, 15, 21, 6, 10, 15, 21, 6, 10, 15, 21, 6, 10, 15, 21]

/-- The MD5 round function F, G, H or I according to the round index. -/
def md5F (i b c d : Nat) : Nat :=
  if i < 16 then (b &&& c) ||| ((b ^^^ 4294967295) &&& d)
  else if i < 32 then (d &&& b) ||| ((d ^^^ 4294967295) &&& c)
  else if i < 48 then b ^^^ c ^^^ d
  else c ^^^ (b ||| (d ^^^ 4294967295))

/-- The MD5 message-word index schedule. -/
def md5G (i : Nat) : Nat :=
  if i < 16 then i
  else if i < 32 then (5 * i + 1) % 16
  else if i < 48 then (3 * i + 5) % 16
  else (7 * i) % 16

/-- Little-endian 32-bit word j of a 64-byte chunk. -/
def leWord (chunk : List Nat) (j : Nat) : Nat :=
  chunk.getD (4 * j) 0 + 256 * chunk.getD (4 * j + 1) 0 +
    65536 * chunk.getD (4 * j + 2) 0 + 16777216 * chunk.getD (4 * j + 3) 0

/-- One MD5 round on the running (a, b, c, d) state. -/
def md5Step (chunk : List Nat) (st : Nat × Nat × Nat × Nat) (i : Nat) :
    Nat × Nat × Nat × Nat :=
  let a := st.1
  let b := st.2.1
  let c := st.2.2.1
  let d := st.2.2.2
  let f := (md5F i b c d + a + md5K.getD i 0 + leWord chunk (md5G i)) % M32
  (d, (b + rotl32 f (md5S.getD i 0)) % M32, b, c)

/-- Process one 64-byte chunk: run the 64 rounds and add into the state. -/
def md5ProcessChunk (st : Nat × Nat × Nat × Nat) (chunk : List Nat) :
    Nat × Nat × Nat × Nat :=
  let r := (List.range 64).foldl (md5Step chunk) st
  ((st.1 + r.1) % M32, (st.2.1 + r.2.1) % M32,
   (st.2.2.1 + r.2.2.1) % M32, (st.2.2.2 + r.2.2.2) % M32)

/-- The 8-byte little-endian encoding of the message bit length. -/
def md5LenBytes (len : Nat) : List Nat :=
  (List.range 8).map (fun i => ((len * 8) >>> (8 * i)) % 256)

/-- MD5 padding: a 0x80 byte, zeros to 56 mod 64, then the bit length. -/
def md5Pad (msg : List Nat) : List Nat :=
  msg ++ [128] ++ List.replicate ((119 - msg.length % 64) % 64) 0 ++
    md5LenBytes msg.length

/-- Split a byte list (whose length is a multiple of 64 after padding) into
64-byte chunks. -/
def chunks64 (l : List Nat) : List (List Nat) :=
  if h : l = [] then []
  else l.take 64 :: chunks64 (l.drop 64)
termination_by l.length
decreasing_by
  simp only [List.length_drop]
  have : 0 < l.length := List.length_pos.mpr h
  omega

/-- The 4-byte little-endian encoding of a 32-bit word. -/
def wordLE (w : Nat) : List Nat :=
  [w % 256, (w >>> 8) % 256, (w >>> 16) % 256, (w >>> 24) % 256]

/-- The MD5 digest (16 bytes) of a byte list. -/
def md5Bytes (msg : List Nat) : List Nat :=
  let st := (chunks64 (md5Pad msg)).foldl md5ProcessChunk
    (1732584193, 4023233417, 2562383102, 271733878)
  wordLE st.1 ++ wordLE st.2.1 ++ wordLE st.2.2.1 ++ wordLE st.2.2.2

/-- An uppercase hex digit. -/
def hexDigitU (n : Nat) : Char :=
  if n < 10 then Char.ofNat (48 + n) else Char.ofNat (55 + n)

/-- Two uppercase hex digits of one byte. -/
def hexByteU (b : Nat) : String :=
  String.mk [hexDigitU (b / 16), hexDigitU (b % 16)]

/-- Uppercase hex rendering of a byte list (`hexdigest().upper()`). -/
def hexUpper (bytes : List Nat) : String :=
  String.join (bytes.map hexByteU)

/-! ### Request signing (`_params_sign`) -/

/-- The order `sorted(pms.items())` sorts by: lexicographic on the (key, value)
pair, Python's tuple comparison. -/
def pairLe (x y : String × String) : Prop :=
  x.1 < y.1 ∨ (x.1 = y.1 ∧ x.2 ≤ y.2)

instance (x y : String × String) : Decidable (pairLe x y) := by
  unfold pairLe
  infer_instance

/-- The spec's order: sort entries by key alone (ordinal order). -/
def keyLe (x y : String × String) : Prop := x.1 ≤ y.1

instance (x y : String × String) : Decidable (keyLe x y) := by
  unfold keyLe
  infer_instance

/-- Strict by-key order, used to compare the two sorts. -/
def keyLt (x y : String × String) : Prop := x.1 < y.1

instance (x y : String × String) : Decidable (keyLt x y) := by
  unfold keyLt
  infer_instance

instance : IsTotal (String × String) pairLe where
  total a b := by
    rcases lt_trichotomy a.1 b.1 with h | h | h
    · exact Or.inl (Or.inl h)
    · rcases le_total a.2 b.2 with h2 | h2
      · exact Or.inl (Or.inr ⟨h, h2⟩)
      · exact Or.inr (Or.inr ⟨h.symm, h2⟩)
    · exact Or.inr (Or.inl h)

instance : IsTrans (String × String) pairLe where
  trans a b c hab hbc := by
    rcases hab with h1 | ⟨h1, h1v⟩
    · rcases hbc with h2 | ⟨h2, h2v⟩
      · exact Or.inl (lt_trans h1 h2)
      · exact Or.inl (h2 ▸ h1)
    · rcases hbc with h2 | ⟨h2, h2v⟩
      · exact Or.inl (h1 ▸ h2)
      · exact Or.inr ⟨h1.trans h2, le_trans h1v h2v⟩

instance : IsAntisymm (String × String) pairLe where
  antisymm a b hab hba := by
    rcases hab with h1 | ⟨h1, h1v⟩
    · rcases hba with h2 | ⟨h2, h2v⟩
      · exact absurd (lt_trans h1 h2) (lt_irrefl a.1)
      · exact absurd h1 (h2 ▸ lt_irrefl b.1)
    · rcases hba with h2 | ⟨h2, h2v⟩
      · exact absurd h2 (h1 ▸ lt_irrefl a.1)
      · exact Prod.ext h1 (le_antisymm h1v h2v)

instance : IsTotal (String × String) keyLe where
  total a b := le_total a.1 b.1

instance : IsTrans (String × String) keyLe where
  trans _ _ _ hab hbc := le_trans hab hbc

instance : IsAntisymm (String × String) keyLt where
  antisymm _ _ hab hba := absurd (lt_trans hab hba) (lt_irrefl _)

/-- Embeds `_params_sign`: sort the items (Python tuple order), render `key=value`
parts, append the shared-secret part, join with ampersands, MD5, uppercase
hex. -/
def paramsSign (pms : List (String × String)) : String :=
  let lst := List.insertionSort pairLe pms
  let parts := (lst.map (fun kv => kv.1 ++ "=" ++ kv.2)) ++ ["key=" ++ SIGN_KEY]
  hexUpper (md5Bytes (utf8Bytes (String.intercalate "&" parts)))

/-- The spec's description of the signature: sort the entries by key in
ordinal order, render `key=value` parts joined by ampersands with the fixed
shared-secret suffix appended, and take the uppercase-hex MD5 of the UTF-8
bytes. -/
def signSpec (pms : List (String × String)) : String :=
  let lst := List.insertionSort keyLe pms
  let parts := (lst.map (fun kv => kv.1 ++ "=" ++ kv.2)) ++ ["key=" ++ SIGN_KEY]
  hexUpper (md5Bytes (utf8Bytes (String.intercalate "&" parts)))

/-! ### Concrete fixtures used by witness theorems -/

/-- A store holding a region-scoped usa token, a legacy phone and a legacy
api_base resolving to usa. -/
def testStoreA : Store := fun k =>
  if k = "api_base" then some "https://app-usa.catlinks.cn/api/"
  else if k = "token:usa" then some "tkn"
  else if k = "phone" then some "555"
  else none

/-- A store whose legacy api_base resolves to no region. -/
def testStoreB : Store := fun k =>
  if k = "api_base" then some "https://example.com/"
  else if k = "token" then some "lg"
  else none

/-- The empty store. -/
def emptyStore : Store := fun _ => none

/-- The record `loadCredentialsForRegion testStoreA "usa"` produces. -/
def credsA : Creds :=
  Creds.mk "tkn" "555" "86" "https://app-usa.catlinks.cn/api/" true

/-- A success envelope. -/
def respOk : Resp := Resp.mk (some 0) none none none

/-- A token-expired envelope. -/
def respExpired : Resp := Resp.mk (some 1002) none none none

/-- An error envelope with code 5 and a msg field. -/
def respErr : Resp := Resp.mk (some 5) (some "boom") none none

/-- A login success envelope carrying a token. -/
def respLoginOk : Resp := Resp.mk (some 0) none none (some "newtok")

/-- A login failure envelope without a token. -/
def respLoginFail : Resp := Resp.mk none (some "bad credentials") none none

/-- An oracle: first request expired, login succeeds, retry succeeds. -/
def testOracle : Nat → Resp := fun n =>
  if n = 0 then respExpired else if n = 1 then respLoginOk else respOk

/-- A client session pointing at the usa region base. -/
def testState : CState :=
  CState.mk "https://app-usa.catlinks.cn/api/" "oldtok" "en_GB" true

/-- A keyless device whose three identity fields are all falsy. -/
def keylessDev : Device :=
  [("id", JVal.vint 0), ("deviceId", JVal.vnull), ("mac", JVal.vstr "")]

end Catlink

namespace Catlink

/-! ### Helper lemmas -/

theorem mergeGo_eq_specGo (l : List Device) :
    ∀ (pre : List Device) (seen : List String),
      (∀ k, k ∈ seen ↔ ∃ d ∈ pre, keyOf d = some k) →
      mergeGo l seen = mergeSpecGo pre l := by
  induction l with
  | nil => intro pre seen _; rfl
  | cons d rest ih =>
    intro pre seen hinv
    cases hk : keyOf d with
    | none =>
      have hdrop : droppedAt pre d = false := by simp [droppedAt, hk]
      simp only [mergeGo, hk, mergeSpecGo, hdrop, if_neg, Bool.false_eq_true,
        not_false_eq_true, if_false]
      congr 1
      apply ih
      intro k
      rw [hinv k]
      constructor
      · rintro ⟨d2, hd2, hkd2⟩
        exact ⟨d2, List.mem_append_left _ hd2, hkd2⟩
      · rintro ⟨d2, hd2, hkd2⟩
        rcases List.mem_append.mp hd2 with h | h
        · exact ⟨d2, h, hkd2⟩
        · rcases List.mem_singleton.mp h with rfl
          rw [hk] at hkd2
          exact absurd hkd2 (by simp)
    | some k0 =>
      by_cases hc : k0 ∈ seen
      · have hcc : seen.contains k0 = true := List.elem_eq_true_of_mem hc
        have hdrop : droppedAt pre d = true := by
          rcases (hinv k0).mp hc with ⟨d2, hd2, hkd2⟩
          simp only [droppedAt, hk, List.any_eq_true]
          exact ⟨d2, hd2, by simp [hkd2]⟩
        simp only [mergeGo, hk, hcc, if_true, mergeSpecGo, hdrop]
        apply ih
        intro k
        rw [hinv k]
        constructor
        · rintro ⟨d2, hd2, hkd2⟩
          exact ⟨d2, List.mem_append_left _ hd2, hkd2⟩
        · rintro ⟨d2, hd2, hkd2⟩
          rcases List.mem_append.mp hd2 with h | h
          · exact ⟨d2, h, hkd2⟩
          · rcases List.mem_singleton.mp h with rfl
            rw [hk] at hkd2
            rcases Option.some.injEq _ _ ▸ hkd2 with rfl
            exact (hinv k0).mp hc
      · have hcc : seen.contains k0 = false := by
          by_contra hne
          exact hc (List.mem_of_elem_eq_true (Bool.of_not_eq_false hne))
        have hdrop : droppedAt pre d = false := by
          simp only [droppedAt, hk, List.any_eq_true, not_exists]
          by_contra hne
          simp only [Bool.not_eq_false, List.any_eq_true] at hne
          rcases hne with ⟨d2, hd2, hkd2⟩
          simp only [beq_iff_eq] at hkd2
          exact hc ((hinv k0).mpr ⟨d2, hd2, hkd2⟩)
        simp only [mergeGo, hk, hcc, mergeSpecGo, hdrop, Bool.false_eq_true,
          not_false_eq_true, if_false]
        congr 1
        apply ih
        intro k
        simp only [List.mem_cons]
        constructor
        · rintro (rfl | hks)
          · exact ⟨d, List.mem_append_right _ (List.mem_singleton_self d), hk⟩
          · rcases (hinv k).mp hks with ⟨d2, hd2, hkd2⟩
            exact ⟨d2, List.mem_append_left _ hd2, hkd2⟩
        · rintro ⟨d2, hd2, hkd2⟩
          rcases List.mem_append.mp hd2 with h | h
          · exact Or.inr ((hinv k).mpr ⟨d2, h, hkd2⟩)
          · rcases List.mem_singleton.mp h with rfl
            rw [hk] at hkd2
            exact Or.inl (Option.some.inj hkd2).symm

theorem mergeGo_append_keyless (d : Device) (hd : keyOf d = none) :
    ∀ (l : List Device) (seen : List String),
      mergeGo (l ++ [d]) seen = mergeGo l seen ++ [d] := by
  intro l
  induction l with
  | nil => intro seen; simp [mergeGo, hd]
  | cons x rest ih =>
    intro seen
    cases hk : keyOf x with
    | none => simp [mergeGo, hk, ih]
    | some k =>
      by_cases hc : k ∈ seen <;> simp [mergeGo, hk, hc, ih]

theorem keyOf_none_of_falsy (d : Device)
    (h1 : truthy (dget d "id") = false) (h2 : truthy (dget d "deviceId") = false)
    (h3 : truthy (dget d "mac") = false) : keyOf d = none := by
  simp [keyOf, rawIdent, pyOr, h1, h2, h3]

/-! ### Claim theorems -/

/-- Claim C3: the response validator returns the dictionary unchanged when the
returnCode is 0 or absent, raises a token-expired error with code 1002 when it
is 1002, and raises an API error carrying the numeric code and the
msg-else-message-else-generic text for any other non-zero code. -/
theorem checkResponse_spec (rsp : Resp) :
    ((rsp.returnCode = none ∨ rsp.returnCode = some 0) →
      checkResponse rsp = Except.ok rsp) ∧
    (rsp.returnCode = some 1002 →
      checkResponse rsp = Except.error ("Token expired", 1002)) ∧
    (∀ c : Int, rsp.returnCode = some c → c ≠ 0 → c ≠ 1002 →
      checkResponse rsp =
        Except.error (errMsg rsp.msg rsp.message ("Error code " ++ toString c), c)) := by
  refine ⟨?_, ?_, ?_⟩
  · rintro (h | h) <;> simp [checkResponse, h]
  · intro h
    simp [checkResponse, h]
  · intro c h hc0 hc1002
    simp [checkResponse, h, hc0, hc1002]

theorem checkResponse_spec_witness :
    checkResponse respOk = Except.ok respOk ∧
    checkResponse respExpired = Except.error ("Token expired", 1002) ∧
    checkResponse respErr =
      Except.error (errMsg (some "boom") none ("Error code " ++ toString (5 : Int)), 5) :=
  ⟨(checkResponse_spec respOk).1 (Or.inr rfl),
   (checkResponse_spec respExpired).2.1 rfl,
   (checkResponse_spec respErr).2.2 5 rfl (by decide) (by decide)⟩

/-- Claim C9: login clears the stored token before dispatching (the dispatched
request carries the empty token), fails with an auth error carrying the
server-selected message when the response has no truthy token (leaving the
token empty), and stores the returned token on success. -/
theorem login_spec (st : CState) (server : String → Resp) (rsp : Resp)
    (h : server "" = rsp) :
    (truthyStr rsp.dataToken = none →
      login st server =
        (withToken st "",
         Except.error ("Login failed: " ++ errMsg rsp.msg rsp.message "Login failed", 0)) ∧
      (login st server).1.token = "") ∧
    (∀ t, truthyStr rsp.dataToken = some t →
      login st server = (withToken st t, Except.ok t) ∧
      (login st server).1.token = t) := by
  constructor
  · intro ht
    constructor <;> simp [login, withToken, h, ht]
  · intro t ht
    constructor <;> simp [login, withToken, h, ht]

theorem login_spec_witness :
    (truthyStr respLoginFail.dataToken = none ∧
      (login testState (fun _ => respLoginFail)).1.token = "") ∧
    (truthyStr respLoginOk.dataToken = some "newtok" ∧
      login testState (fun _ => respLoginOk) = (withToken testState "newtok", Except.ok "newtok")) :=
  ⟨⟨by decide, ((login_spec testState (fun _ => respLoginFail) respLoginFail rfl).1 (by decide)).2⟩,
   ⟨by decide, ((login_spec testState (fun _ => respLoginOk) respLoginOk rfl).2 "newtok" (by decide)).1⟩⟩

/-- Claim C4: the merge result is the concatenation of primary then extra with
an item dropped exactly when its identity key equals the identity key of an
earlier item; keyless items are always kept; order is preserved; and the
concrete example merges to ids 1, 2, 3 with no duplicates. -/
theorem mergeDevices_spec (p e : List Device) :
    mergeDevices p e = mergeSpec (p ++ e) ∧
    mergeDevices [[("id", JVal.vint 1)], [("id", JVal.vint 2)]]
        [[("id", JVal.vint 2)], [("id", JVal.vint 3)]] =
      [[("id", JVal.vint 1)], [("id", JVal.vint 2)], [("id", JVal.vint 3)]] := by
  constructor
  · exact mergeGo_eq_specGo (p ++ e) [] [] (by simp)
  · decide

/-- Claim C10: the identity key is the string conversion of the first truthy
value among id, deviceId and mac; an item whose three identity fields are all
falsy has no identity and is always kept (appended unchanged) even when an
identical item occurred earlier; a numeric id and its decimal string form are
deduplicated. -/
theorem mergeDevices_identity (p e : List Device) (d : Device)
    (h1 : truthy (dget d "id") = false) (h2 : truthy (dget d "deviceId") = false)
    (h3 : truthy (dget d "mac") = false) :
    mergeDevices p (e ++ [d]) = mergeDevices p e ++ [d] ∧
    mergeDevices [[("id", JVal.vint 1)]] [[("id", JVal.vstr "1")]] =
      [[("id", JVal.vint 1)]] ∧
    mergeDevices [keylessDev] [keylessDev] = [keylessDev, keylessDev] := by
  refine ⟨?_, by decide, by decide⟩
  have hd : keyOf d = none := keyOf_none_of_falsy d h1 h2 h3
  unfold mergeDevices
  rw [← List.append_assoc]
  exact mergeGo_append_keyless d hd (p ++ e) []

/-- Claim C5: a successful save whose api_base reverse-looks-up to a region
leaves all five values under the unscoped legacy keys and additionally under
the same five keys suffixed with the region. -/
theorem saveCredentials_spec (token phone phoneIac apiBase : String) (verify : Bool)
    (store : Store) (region : String)
    (h : regionFromApiBase apiBase = some region) :
    saveCredentials token phone phoneIac apiBase verify store KEYRING_TOKEN_KEY = some token ∧
    saveCredentials token phone phoneIac apiBase verify store KEYRING_PHONE_KEY = some phone ∧
    saveCredentials token phone phoneIac apiBase verify store KEYRING_IAC_KEY = some phoneIac ∧
    saveCredentials token phone phoneIac apiBase verify store KEYRING_API_BASE_KEY = some apiBase ∧
    saveCredentials token phone phoneIac apiBase verify store KEYRING_VERIFY_KEY =
      some (pyStrBool verify) ∧
    saveCredentials token phone phoneIac apiBase verify store
      (regionKey KEYRING_TOKEN_KEY region) = some token ∧
    saveCredentials token phone phoneIac apiBase verify store
      (regionKey KEYRING_PHONE_KEY region) = some phone ∧
    saveCredentials token phone phoneIac apiBase verify store
      (regionKey KEYRING_IAC_KEY region) = some phoneIac ∧
    saveCredentials token phone phoneIac apiBase verify store
      (regionKey KEYRING_API_BASE_KEY region) = some apiBase ∧
    saveCredentials token phone phoneIac apiBase verify store
      (regionKey KEYRING_VERIFY_KEY region) = some (pyStrBool verify) := by
  have hmem : region ∈ API_SERVERS.map Prod.fst := by
    rcases Option.map_eq_some'.mp h with ⟨pr, hfind, hfst⟩
    exact hfst ▸ List.mem_map_of_mem Prod.fst (List.mem_of_find?_eq_some hfind)
  unfold saveCredentials
  rw [h]
  simp only [API_SERVERS, List.map] at hmem
  fin_cases hmem <;>
    exact ⟨rfl, rfl, rfl, rfl, rfl, rfl, rfl, rfl, rfl, rfl⟩

theorem saveCredentials_spec_witness :
    regionFromApiBase "https://app-usa.catlinks.cn/api/" = some "usa" ∧
    saveCredentials "t1" "p1" "1" "https://app-usa.catlinks.cn/api/" true emptyStore
      KEYRING_TOKEN_KEY = some "t1" ∧
    saveCredentials "t1" "p1" "1" "https://app-usa.catlinks.cn/api/" true emptyStore
      (regionKey KEYRING_VERIFY_KEY "usa") = some (pyStrBool true) :=
  ⟨by decide,
   (saveCredentials_spec "t1" "p1" "1" "https://app-usa.catlinks.cn/api/" true
     emptyStore "usa" (by decide)).1,
   (saveCredentials_spec "t1" "p1" "1" "https://app-usa.catlinks.cn/api/" true
     emptyStore "usa" (by decide)).2.2.2.2.2.2.2.2.2⟩

theorem loadCredentials_none_eq (store : Store) :
    loadCredentials store none =
      match truthyStr (store KEYRING_API_BASE_KEY) with
      | some apiBase =>
        (match truthyStr (regionFromApiBase apiBase) with
         | some regionName =>
           (match loadCredentialsForRegion store regionName with
            | some creds => some creds
            | none => loadLegacyCredentials store)
         | none => loadLegacyCredentials store)
      | none => loadLegacyCredentials store := rfl

/-- Claim C6: a supplied region selects only that region's record (nothing
when that region has no truthy token); with no region, the region resolved
from the stored unscoped api_base is loaded, falling back to the legacy record
when resolution fails; region-scoped phone and country code fall back
individually to the legacy values when absent, and api_base falls back to the
region table's canonical base URL. -/
theorem loadCredentials_spec :
    (∀ (store : Store) (r : String), r ≠ "" →
      loadCredentials store (some r) = loadCredentialsForRegion store r) ∧
    (∀ (store : Store) (r : String),
      truthyStr (store (regionKey KEYRING_TOKEN_KEY r)) = none →
      loadCredentialsForRegion store r = none) ∧
    (∀ (store : Store) (ab rn : String) (c : Creds),
      truthyStr (store KEYRING_API_BASE_KEY) = some ab →
      regionFromApiBase ab = some rn →
      loadCredentialsForRegion store rn = some c →
      loadCredentials store none = some c) ∧
    (∀ (store : Store) (ab : String),
      truthyStr (store KEYRING_API_BASE_KEY) = some ab →
      regionFromApiBase ab = none →
      loadCredentials store none = loadLegacyCredentials store) ∧
    (∀ (store : Store) (r : String) (c : Creds),
      loadCredentialsForRegion store r = some c →
      store (regionKey KEYRING_PHONE_KEY r) = none →
      c.phone = orDefault (store KEYRING_PHONE_KEY) "") ∧
    (∀ (store : Store) (r : String) (c : Creds),
      loadCredentialsForRegion store r = some c →
      store (regionKey KEYRING_IAC_KEY r) = none →
      c.phoneIac = orDefault (store KEYRING_IAC_KEY) "86") ∧
    (∀ (store : Store) (r : String) (c : Creds),
      loadCredentialsForRegion store r = some c →
      store (regionKey KEYRING_API_BASE_KEY r) = none →
      c.apiBase = lookupServer r) := by
  have hfield : ∀ (store : Store) (r : String) (c : Creds),
      loadCredentialsForRegion store r = some c →
      c.phone = orDefault (store (regionKey KEYRING_PHONE_KEY r))
          (orDefault (store KEYRING_PHONE_KEY) "") ∧
      c.phoneIac = orDefault (store (regionKey KEYRING_IAC_KEY r))
          (orDefault (store KEYRING_IAC_KEY) "86") ∧
      c.apiBase = orDefault (store (regionKey KEYRING_API_BASE_KEY r))
          (lookupServer r) := by
    intro store r c hc
    unfold loadCredentialsForRegion at hc
    cases ht : truthyStr (store (regionKey KEYRING_TOKEN_KEY r)) with
    | none => rw [ht] at hc; exact absurd hc (by simp)
    | some token =>
      rw [ht] at hc
      simp only [Option.some.injEq] at hc
      subst hc
      exact ⟨rfl, rfl, rfl⟩
  refine ⟨?_, ?_, ?_, ?_, ?_, ?_, ?_⟩
  · intro store r hr
    simp [loadCredentials, truthyStr, hr]
  · intro store r h
    unfold loadCredentialsForRegion
    rw [h]
  · intro store ab rn c hab hrn hc
    have hne : rn ≠ "" := by
      rcases Option.map_eq_some'.mp hrn with ⟨pr, hfind, hfst⟩
      have hmem : pr ∈ API_SERVERS := List.mem_of_find?_eq_some hfind
      subst hfst
      fin_cases hmem <;> decide
    rw [loadCredentials_none_eq, hab]
    simp only [hrn, truthyStr, if_neg hne, hc]
  · intro store ab hab hrn
    rw [loadCredentials_none_eq, hab]
    simp only [hrn]
    rfl
  · intro store r c hc hp
    rw [((hfield store r c) hc).1, hp]
    rfl
  · intro store r c hc hp
    rw [((hfield store r c) hc).2.1, hp]
    rfl
  · intro store r c hc hp
    rw [((hfield store r c) hc).2.2, hp]
    rfl

theorem loadCredentials_spec_witness :
    (("usa" : String) ≠ "" ∧
      loadCredentials testStoreA (some "usa") = loadCredentialsForRegion testStoreA "usa") ∧
    (truthyStr (testStoreA (regionKey KEYRING_TOKEN_KEY "china")) = none ∧
      loadCredentialsForRegion testStoreA "china" = none) ∧
    (loadCredentials testStoreA none = some credsA) ∧
    (regionFromApiBase "https://example.com/" = none ∧
      loadCredentials testStoreB none = loadLegacyCredentials testStoreB) ∧
    (testStoreA (regionKey KEYRING_PHONE_KEY "usa") = none ∧
      credsA.phone = orDefault (testStoreA KEYRING_PHONE_KEY) "") ∧
    (credsA.phoneIac = orDefault (testStoreA KEYRING_IAC_KEY) "86") ∧
    (testStoreA (regionKey KEYRING_API_BASE_KEY "usa") = none ∧
      credsA.apiBase = lookupServer "usa") :=
  ⟨⟨by decide, loadCredentials_spec.1 testStoreA "usa" (by decide)⟩,
   ⟨by decide, loadCredentials_spec.2.1 testStoreA "china" (by decide)⟩,
   loadCredentials_spec.2.2.1 testStoreA "https://app-usa.catlinks.cn/api/" "usa" credsA
     (by decide) (by decide) (by decide),
   ⟨by decide, loadCredentials_spec.2.2.2.1 testStoreB "https://example.com/"
     (by decide) (by decide)⟩,
   ⟨by decide, loadCredentials_spec.2.2.2.2.1 testStoreA "usa" credsA
     (by decide) (by decide)⟩,
   loadCredentials_spec.2.2.2.2.2.1 testStoreA "usa" credsA (by decide) (by decide),
   ⟨by decide, loadCredentials_spec.2.2.2.2.2.2 testStoreA "usa" credsA
     (by decide) (by decide)⟩⟩

theorem foldl_delKey_apply (ks : List String) :
    ∀ (store : Store) (k : String),
      (ks.foldl delKey store) k = if k ∈ ks then none else store k := by
  induction ks with
  | nil => intro store k; simp
  | cons k0 rest ih =>
    intro store k
    simp only [List.foldl_cons, ih, List.mem_cons]
    by_cases hk : k = k0
    · subst hk
      by_cases hr : k ∈ rest <;> simp [delKey, hr]
    · by_cases hr : k ∈ rest <;> simp [delKey, hk, hr]

/-- Claim C7: clearing with a region deletes exactly that region's five
region-scoped keys, leaving the legacy keys and every other region's keys
unchanged; clearing with no region deletes the legacy keys and every
region-scoped variant for all table regions; deletion is a total operation
(deleting an absent key is a no-op on the store). -/
theorem clearCredentials_spec :
    (∀ (store : Store) (k : String),
      clearCredentials store k = if k ∈ clearKeys then none else store k) ∧
    (∀ (store : Store) (region k : String),
      clearCredentialsForRegion store region k =
        if k ∈ recordKeyNames.map (fun b => regionKey b region) then none else store k) ∧
    (∀ (store : Store) (region k : String), region ∈ API_SERVERS.map Prod.fst →
      k ∈ recordKeyNames →
      clearCredentialsForRegion store region k = store k) ∧
    (∀ (store : Store) (r1 r2 b : String), r1 ∈ API_SERVERS.map Prod.fst →
      r2 ∈ API_SERVERS.map Prod.fst → r1 ≠ r2 → b ∈ recordKeyNames →
      clearCredentialsForRegion store r1 (regionKey b r2) = store (regionKey b r2)) := by
  refine ⟨?_, ?_, ?_, ?_⟩
  · intro store k
    exact foldl_delKey_apply clearKeys store k
  · intro store region k
    exact foldl_delKey_apply (recordKeyNames.map (fun b => regionKey b region)) store k
  · intro store region k hr hk
    simp only [API_SERVERS, List.map, recordKeyNames] at hr hk
    fin_cases hr <;> fin_cases hk <;> rfl
  · intro store r1 r2 b h1 h2 hne hb
    simp only [API_SERVERS, List.map, recordKeyNames] at h1 h2 hb
    fin_cases h1 <;> fin_cases h2 <;> fin_cases hb <;>
      first
      | rfl
      | exact absurd rfl hne

theorem clearCredentials_spec_witness :
    (clearCredentials testStoreA "token:usa" = none) ∧
    (("usa" : String) ∈ API_SERVERS.map Prod.fst ∧
      ("token" : String) ∈ recordKeyNames ∧
      clearCredentialsForRegion testStoreA "usa" "token" = testStoreA "token") ∧
    (("usa" : String) ≠ "china" ∧
      clearCredentialsForRegion testStoreA "usa" (regionKey "token" "china") =
        testStoreA (regionKey "token" "china")) := by
  refine ⟨?_, ⟨by decide, by decide, ?_⟩, ⟨by decide, ?_⟩⟩
  · rw [clearCredentials_spec.1 testStoreA "token:usa"]
    decide
  · exact clearCredentials_spec.2.2.1 testStoreA "usa" "token" (by decide) (by decide)
  · exact clearCredentials_spec.2.2.2 testStoreA "usa" "china" "token"
      (by decide) (by decide) (by decide) (by decide)

/-- Claim C1: when the first response carries the token-expired sentinel 1002,
the client loads cached credentials for the region resolved from its api_base;
with no cached credentials the 1002 failure propagates through the response
check as a protocol error; with cached credentials it re-logs-in and retries
the original request exactly once, after which a zero code succeeds and any
non-zero code of the retried response (1002 included) propagates as a protocol
error with no further retry; a first response without 1002 is never retried. -/
theorem requestWithReauth_spec (st : CState) (store : Store) (oracle : Nat → Resp) :
    ((oracle 0).returnCode.getD 0 = 1002 →
      (loadCredentials store (regionFromApiBase st.apiBase) = none →
        requestWithReauth st store oracle = (st, Except.ok (oracle 0)) ∧
        (requestWithReauthChecked st store oracle).2 =
          Except.error ("Token expired", 1002)) ∧
      (∀ (creds : Creds) (t : String),
        loadCredentials store (regionFromApiBase st.apiBase) = some creds →
        truthyStr (oracle 1).dataToken = some t →
        (requestWithReauth st store oracle).2 = Except.ok (oracle 2) ∧
        ((oracle 2).returnCode.getD 0 = 0 →
          (requestWithReauthChecked st store oracle).2 = Except.ok (oracle 2)) ∧
        ((oracle 2).returnCode.getD 0 = 1002 →
          (requestWithReauthChecked st store oracle).2 =
            Except.error ("Token expired", 1002)) ∧
        (∀ c : Int, (oracle 2).returnCode.getD 0 = c → c ≠ 0 → c ≠ 1002 →
          (requestWithReauthChecked st store oracle).2 =
            Except.error
              (errMsg (oracle 2).msg (oracle 2).message ("Error code " ++ toString c),
               c)))) ∧
    ((oracle 0).returnCode.getD 0 ≠ 1002 →
      requestWithReauth st store oracle = (st, Except.ok (oracle 0))) := by
  constructor
  · intro h0
    constructor
    · intro hload
      have hreq : requestWithReauth st store oracle = (st, Except.ok (oracle 0)) := by
        simp [requestWithReauth, h0, hload]
      refine ⟨hreq, ?_⟩
      rw [requestWithReauthChecked, hreq]
      simp [checkResponse, h0]
    · intro creds t hload ht
      have hlog : login st (fun _ => oracle 1) = (withToken st t, Except.ok t) := by
        simp [login, withToken, ht]
      have hreq : requestWithReauth st store oracle =
          (withToken st t, Except.ok (oracle 2)) := by
        simp [requestWithReauth, h0, hload, hlog]
      have hchecked : requestWithReauthChecked st store oracle =
          (withToken st t, checkResponse (oracle 2)) := by
        rw [requestWithReauthChecked, hreq]
      refine ⟨by rw [hreq], ?_, ?_, ?_⟩
      · intro hc
        rw [hchecked]
        simp [checkResponse, hc]
      · intro hc
        rw [hchecked]
        simp [checkResponse, hc]
      · intro c hc hc0 hc1002
        rw [hchecked]
        simp [checkResponse, hc, hc0, hc1002]
  · intro h0
    simp [requestWithReauth, h0]

theorem requestWithReauth_spec_witness :
    ((testOracle 0).returnCode.getD 0 = 1002) ∧
    (loadCredentials emptyStore (regionFromApiBase testState.apiBase) = none ∧
      (requestWithReauthChecked testState emptyStore testOracle).2 =
        Except.error ("Token expired", 1002)) ∧
    (loadCredentials testStoreA (regionFromApiBase testState.apiBase) = some credsA ∧
      truthyStr (testOracle 1).dataToken = some "newtok" ∧
      (requestWithReauth testState testStoreA testOracle).2 = Except.ok (testOracle 2) ∧
      (requestWithReauthChecked testState testStoreA testOracle).2 =
        Except.ok (testOracle 2)) :=
  ⟨by decide,
   ⟨by decide,
    (((requestWithReauth_spec testState emptyStore testOracle).1 (by decide)).1
      (by decide)).2⟩,
   ⟨by decide, by decide,
    (((requestWithReauth_spec testState testStoreA testOracle).1 (by decide)).2 credsA
      "newtok" (by decide) (by decide)).1,
    ((((requestWithReauth_spec testState testStoreA testOracle).1 (by decide)).2 credsA
      "newtok" (by decide) (by decide)).2.1 (by decide))⟩⟩

theorem mergeDevices_identity_witness :
    (truthy (dget keylessDev "id") = false ∧
     truthy (dget keylessDev "deviceId") = false ∧
     truthy (dget keylessDev "mac") = false) ∧
    mergeDevices [keylessDev] ([] ++ [keylessDev]) =
      mergeDevices [keylessDev] [] ++ [keylessDev] :=
  ⟨⟨by decide, by decide, by decide⟩,
   (mergeDevices_identity [keylessDev] [] keylessDev
     (by decide) (by decide) (by decide)).1⟩

theorem sorted_keyLt_of_pairLe {l : List (String × String)}
    (hs : List.Sorted pairLe l) (hn : (l.map Prod.fst).Nodup) :
    List.Sorted keyLt l := by
  have hn2 : l.Pairwise (fun a b : String × String => a.1 ≠ b.1) :=
    List.pairwise_map.mp hn
  exact (hs.and hn2).imp (fun h =>
    h.1.resolve_right (fun hc => h.2 hc.1))

theorem sorted_keyLt_of_keyLe {l : List (String × String)}
    (hs : List.Sorted keyLe l) (hn : (l.map Prod.fst).Nodup) :
    List.Sorted keyLt l := by
  have hn2 : l.Pairwise (fun a b : String × String => a.1 ≠ b.1) :=
    List.pairwise_map.mp hn
  exact (hs.and hn2).imp (fun h => lt_of_le_of_ne h.1 h.2)

theorem sortPair_eq_sortKey (pms : List (String × String))
    (h : (pms.map Prod.fst).Nodup) :
    List.insertionSort pairLe pms = List.insertionSort keyLe pms := by
  have hperm : (List.insertionSort pairLe pms).Perm (List.insertionSort keyLe pms) :=
    (List.perm_insertionSort pairLe pms).trans
      (List.perm_insertionSort keyLe pms).symm
  have hn1 : ((List.insertionSort pairLe pms).map Prod.fst).Nodup :=
    (((List.perm_insertionSort pairLe pms).map Prod.fst).nodup_iff).mpr h
  have hn2 : ((List.insertionSort keyLe pms).map Prod.fst).Nodup :=
    (((List.perm_insertionSort keyLe pms).map Prod.fst).nodup_iff).mpr h
  exact List.eq_of_perm_of_sorted hperm
    (sorted_keyLt_of_pairLe (List.sorted_insertionSort pairLe pms) hn1)
    (sorted_keyLt_of_keyLe (List.sorted_insertionSort keyLe pms) hn2)

/-- Claim C2: for every parameter map (distinct keys), the signature equals
the uppercase-hex MD5 digest of the UTF-8 bytes of the string built per the
spec (entries sorted by key in ordinal order, rendered key=value, joined by
ampersands, with the fixed shared-secret suffix appended); in particular the
signature of the empty map is the digest of the literal key=secret string. -/
theorem paramsSign_spec (pms : List (String × String))
    (h : (pms.map Prod.fst).Nodup) :
    paramsSign pms = signSpec pms ∧
    paramsSign [] = hexUpper (md5Bytes (utf8Bytes ("key=" ++ SIGN_KEY))) := by
  constructor
  · unfold paramsSign signSpec
    rw [sortPair_eq_sortKey pms h]
  · rfl

theorem paramsSign_spec_witness :
    (([("b", "2"), ("a", "1")] : List (String × String)).map Prod.fst).Nodup ∧
    paramsSign [("b", "2"), ("a", "1")] = signSpec [("b", "2"), ("a", "1")] :=
  ⟨by decide, (paramsSign_spec [("b", "2"), ("a", "1")] (by decide)).1⟩

/-- Claim C8: the signature is invariant under permutation of the insertion
order of the parameter map, and deterministic for identical input. -/
theorem paramsSign_perm (p q : List (String × String)) (hp : p.Perm q) :
    paramsSign p = paramsSign q ∧
    ∀ r : List (String × String), paramsSign r = paramsSign r := by
  constructor
  · have hsort : List.insertionSort pairLe p = List.insertionSort pairLe q :=
      List.eq_of_perm_of_sorted
        ((List.perm_insertionSort pairLe p).trans
          (hp.trans (List.perm_insertionSort pairLe q).symm))
        (List.sorted_insertionSort pairLe p)
        (List.sorted_insertionSort pairLe q)
    unfold paramsSign
    rw [hsort]
  · intro r
    rfl

theorem paramsSign_perm_witness :
    ([("b", "2"), ("a", "1")] : List (String × String)).Perm
      [("a", "1"), ("b", "2")] ∧
    paramsSign [("b", "2"), ("a", "1")] = paramsSign [("a", "1"), ("b", "2")] :=
  ⟨by decide,
   (paramsSign_perm [("b", "2"), ("a", "1")] [("a", "1"), ("b", "2")] (by decide)).1⟩

end Catlink
